import Mathlib

/-!
Formal model of the Things registry (src/src/models/things.js).

The JavaScript module keeps a module-level Map of Thing objects backed by a
persistent database, a reconciliation routine against devices reported by the
addon manager, and a list of websockets notified of newly discovered things.

The embedding below translates that module into pure Lean functions.  The
JavaScript Map is modelled as an association list with JavaScript Map
semantics (set replaces in place or appends, delete removes the entry, size
is the number of entries).  Asynchronous database calls are modelled by
passing the database outcome (an Except value) as an explicit argument, since
the promise chain in the source simply propagates rejections past the then
callbacks.  External collaborators that are not part of this file
(thing.js, db.js, the addon manager, the websocket transport, the constants
module) are modelled at their interface boundary only, as the specification
describes them.
-/

namespace Gateway

/-- Modelled from the spec: the descriptor payload stored for one Thing.
The registry treats it as opaque (identity and addressing aside), so we use
a plain string. -/
abbrev Desc := String

/-- Modelled from the spec: the Descriptor entity (thing.js is not part of
the sources given).  It wraps one device identity and its persisted
description, and produces its externally visible description. -/
structure Thing where
  id : String
  description : Desc
  deriving DecidableEq, Repr

/-- Modelled from the spec: the Descriptor projects to its description. -/
def Thing.getDescription (t : Thing) : Desc := t.description

/-- A JavaScript exception value: its constructor class name and message.
The only errors constructed by things.js are plain generic Error objects. -/
structure JsError where
  className : String
  message : String
  deriving DecidableEq, Repr

/-- JavaScript Map lookup presence (Map.prototype.has). -/
def mhas {α : Type} : List (String × α) → String → Bool
  | [], _ => false
  | e :: rest, k => e.1 == k || mhas rest k

/-- JavaScript Map lookup (Map.prototype.get): first entry with the key. -/
def mget {α : Type} : List (String × α) → String → Option α
  | [], _ => none
  | e :: rest, k => if e.1 == k then some e.2 else mget rest k

/-- JavaScript Map insertion (Map.prototype.set): replaces the value in
place when the key is present, appends otherwise. -/
def mset {α : Type} : List (String × α) → String → α → List (String × α)
  | [], k, v => [(k, v)]
  | e :: rest, k, v => if e.1 == k then (k, v) :: rest else e :: mset rest k v

/-- JavaScript Map deletion (Map.prototype.delete): removes the entry with
the key. -/
def mdelete {α : Type} : List (String × α) → String → List (String × α)
  | [], _ => []
  | e :: rest, k => if e.1 == k then rest else e :: mdelete rest k

/-- JavaScript Map size (Map.prototype.size). -/
def msize {α : Type} (m : List (String × α)) : Nat := m.length

/-- The in-memory cache `Things.things`: a Map from id to Thing. -/
abbrev CacheMap := List (String × Thing)

/-- The rows returned by Database.getThings: one (id, description) record
per Thing persisted in the store. -/
abbrev DbRows := List (String × Desc)

/-- The cold-load body of Things.getThings: `this.things = new Map();`
followed by one `set(thing.id, new Thing(thing.id, thing))` per row. -/
def loadThings (rows : DbRows) : CacheMap :=
  rows.foldl (fun m r => mset m r.1 (Thing.mk r.1 r.2)) []

/-- One Things.getThings call on the database success path, together with
the number of store queries it issues: if `this.things.size > 0` it returns
the cache with no query, otherwise it queries Database.getThings and
rebuilds the cache from the rows. -/
def getThingsOnce (rows : DbRows) (cache : CacheMap) : CacheMap × Nat :=
  if 0 < msize cache then (cache, 0) else (loadThings rows, 1)

/-- N sequential Things.getThings calls (each completing before the next
starts), threading the cache and summing the store queries issued. -/
def getThingsN (rows : DbRows) : Nat → CacheMap → CacheMap × Nat
  | 0, c => (c, 0)
  | Nat.succ n, c =>
    let r := getThingsOnce rows c
    let r2 := getThingsN rows n r.1
    (r2.1, r.2 + r2.2)

/-- Things.getThings with the database outcome explicit: a rejected
Database.getThings promise propagates unchanged, a fulfilled one rebuilds
the cache.  A warm cache (size > 0) is returned without touching the
database. -/
def getThingsE (things : CacheMap) (dbOutcome : Except JsError DbRows) :
    Except JsError CacheMap :=
  if 0 < msize things then Except.ok things
  else
    match dbOutcome with
    | Except.error e => Except.error e
    | Except.ok rows => Except.ok (loadThings rows)

/-- Things.getThing: resolves the cache via getThings, returns the Thing
when present, otherwise throws `new Error('Unable to find thing with id: '
+ id)` — a plain generic Error. -/
def getThing (things : CacheMap) (dbOutcome : Except JsError DbRows)
    (id : String) : Except JsError Thing :=
  match getThingsE things dbOutcome with
  | Except.error e => Except.error e
  | Except.ok m =>
    match mget m id with
    | some t => Except.ok t
    | none => Except.error (JsError.mk "Error" ("Unable to find thing with id: " ++ id))

/-- Things.getThingDescription: getThing followed by getDescription; any
rejection propagates unchanged. -/
def getThingDescription (things : CacheMap) (dbOutcome : Except JsError DbRows)
    (id : String) : Except JsError Desc :=
  match getThing things dbOutcome id with
  | Except.error e => Except.error e
  | Except.ok t => Except.ok t.getDescription

/-- The class name of the error of a rejected getThing call, if any. -/
def errClassOf : Except JsError Thing → Option String
  | Except.error e => some e.className
  | Except.ok _ => none

/-- Things.createThing with the Database.createThing outcome explicit: the
Thing is constructed first; if the store write rejects, the then callback
never runs, so the cache is untouched and the rejection propagates; if it
fulfills with the persisted description, the Thing is inserted into the
cache and that description is returned. -/
def createThing (things : CacheMap) (id : String) (description : Desc)
    (dbResult : Except JsError Desc) : CacheMap × Except JsError Desc :=
  let thing := Thing.mk id description
  match dbResult with
  | Except.error e => (things, Except.error e)
  | Except.ok thingDesc => (mset things thing.id thing, Except.ok thingDesc)

/-- Things.removeThing with the Database.removeThing outcome explicit.  The
store delete runs first; on success the cache entry for the id, when
present, has its remove hook invoked (collected in the middle component)
and is deleted; when absent the call is a silent no-op.  On store failure
the then callback never runs, leaving the cache untouched. -/
def removeThing (things : CacheMap) (id : String)
    (dbResult : Except JsError Unit) : CacheMap × List Thing × Except JsError Unit :=
  match dbResult with
  | Except.error e => (things, [], Except.error e)
  | Except.ok _ =>
    match mget things id with
    | none => (things, [], Except.ok ())
    | some thing => (mdelete things id, [thing], Except.ok ())

/-- Modelled from the spec: a websocket subscriber handle.  `id` stands for
the object identity of the websocket and `sendFails` records whether its
send call throws (a closed or broken connection). -/
structure Socket where
  id : Nat
  sendFails : Bool
  deriving DecidableEq, Repr

/-- The forEach body of Things.handleNewThing under JavaScript semantics: a
send call delivers the serialized payload, and a throwing send aborts the
iteration (forEach does not catch), so the exception carries out of the
loop.  Returns the (socket, payload) deliveries made and the id of the
socket whose send threw, if any. -/
def broadcastRun (serialize : Desc → String) :
    List Socket → Desc → List (Nat × String) × Option Nat
  | [], _ => ([], none)
  | s :: rest, p =>
    if s.sendFails then ([], some s.id)
    else
      let r := broadcastRun serialize rest p
      ((s.id, serialize p) :: r.1, r.2)

/-- Things.handleNewThing: notifies each open websocket of the new Thing by
sending the serialized description.  The websocket list itself is never
mutated by this function (no removal happens here), so it is returned
unchanged alongside the delivery outcome. -/
def handleNewThing (serialize : Desc → String) (websockets : List Socket)
    (newThing : Desc) : (List (Nat × String) × Option Nat) × List Socket :=
  (broadcastRun serialize websockets newThing, websockets)

/-- JavaScript Array.prototype.indexOf on the websocket list: index of the
first entry identical to the argument, or -1 when absent. -/
def jsIndexOf (l : List Socket) (w : Socket) : Int :=
  match l.findIdx? (fun s => s == w) with
  | some i => Int.ofNat i
  | none => -1

/-- JavaScript Array.prototype.splice(start, 1): a negative start counts
from the end of the array (clamped at 0), a start at or past the length
removes nothing, otherwise the element at start is removed. -/
def spliceOne (l : List Socket) (start : Int) : List Socket :=
  let s : Nat :=
    if start < 0 then (Int.ofNat l.length + start).toNat
    else min start.toNat l.length
  l.eraseIdx s

/-- The close handler installed by Things.registerWebsocket:
`this.websockets.splice(this.websockets.indexOf(websocket), 1)` evaluated
against the websocket list current when the close event fires. -/
def closeHandler (websockets : List Socket) (websocket : Socket) : List Socket :=
  spliceOne websockets (jsIndexOf websockets websocket)

/-- The module-level mutable state of things.js: the Thing cache and the
open websocket list. -/
structure ThingsState where
  things : CacheMap
  websockets : List Socket
  deriving Repr

/-- Things.clearState: replaces the websocket list with an empty array and
the cache with a fresh empty Map. -/
def clearState (_s : ThingsState) : ThingsState :=
  { websockets := [], things := [] }

/-- A property descriptor carried by a connected device: its address field
and an opaque remainder. -/
structure PropertyDesc where
  href : String
  body : String
  deriving DecidableEq, Repr

/-- A device description reported by AddonManager.getThings: an id, an
address field, and an optional properties mapping (none models a missing or
null properties field, which the source skips via truthiness). -/
structure ConnectedThing where
  id : String
  href : String
  properties : Option (List (String × PropertyDesc))
  deriving DecidableEq, Repr

/-- The forEach body of Things.getNewThings: a connected device already in
storedThings leaves the accumulator unchanged; otherwise its href is set to
THINGS_PATH/id, every property href is set to
THINGS_PATH/id PROPERTIES_PATH/name, and the device is pushed. -/
def addNewThing (thingsPath propertiesPath : String) (storedThings : CacheMap)
    (newThings : List ConnectedThing) (connectedThing : ConnectedThing) :
    List ConnectedThing :=
  if mhas storedThings connectedThing.id then newThings
  else
    let withHref : ConnectedThing :=
      { connectedThing with href := thingsPath ++ "/" ++ connectedThing.id }
    let withProps : ConnectedThing :=
      match withHref.properties with
      | none => withHref
      | some props =>
        { withHref with
          properties := some (props.map (fun q =>
            (q.1, { q.2 with href := thingsPath ++ "/" ++ connectedThing.id
                                      ++ propertiesPath ++ "/" ++ q.1 }))) }
    newThings ++ [withProps]

/-- Things.getNewThings: folds the connected device list through the
forEach body above, starting from an empty accumulator. -/
def getNewThings (thingsPath propertiesPath : String) (storedThings : CacheMap)
    (connectedThings : List ConnectedThing) : List ConnectedThing :=
  connectedThings.foldl (addNewThing thingsPath propertiesPath storedThings) []

/-- The specification's addressing of one unregistered device: href set to
THINGS_PATH/id and each property href set to
THINGS_PATH/id PROPERTIES_PATH/name, everything else untouched. -/
def addressThing (thingsPath propertiesPath : String) (c : ConnectedThing) :
    ConnectedThing :=
  { c with
    href := thingsPath ++ "/" ++ c.id
    properties := c.properties.map (fun props => props.map (fun q =>
      (q.1, { q.2 with href := thingsPath ++ "/" ++ c.id
                                ++ propertiesPath ++ "/" ++ q.1 }))) }

/-- A completed registry operation, for reachability over the combined
store-and-cache state: a getThings call that ran to completion, a
createThing or removeThing whose store call succeeded, or clearState. -/
inductive GwOp where
  | load
  | create (id : String) (d : Desc)
  | remove (id : String)
  | clear
  deriving DecidableEq, Repr

/-- The combined state: the persistent store contents and the cache. -/
structure GwState where
  db : DbRows
  things : CacheMap
  deriving DecidableEq, Repr

/-- One completed operation of things.js acting on store and cache:
load is getThings (cold: query and rebuild; warm: no-op); create appends or
overwrites the store row and inserts the Thing into the cache; remove
deletes the store row and then the cache entry when present; clear empties
the cache only. -/
def gwStep (s : GwState) : GwOp → GwState
  | GwOp.load => if 0 < msize s.things then s else { s with things := loadThings s.db }
  | GwOp.create id d =>
    { db := mset s.db id d, things := mset s.things id (Thing.mk id d) }
  | GwOp.remove id =>
    { db := mdelete s.db id,
      things :=
        match mget s.things id with
        | none => s.things
        | some _ => mdelete s.things id }
  | GwOp.clear => { s with things := [] }

/-- Run a sequence of completed operations from a state. -/
def gwRun (s : GwState) (ops : List GwOp) : GwState := ops.foldl gwStep s

/-- The guard of the amended mirror invariant: a create is performed only
while the cache is warm or the store is empty. -/
def guardOk (s : GwState) : GwOp → Bool
  | GwOp.create _ _ => decide (0 < msize s.things) || s.db.isEmpty
  | _ => true

/-- Every operation of the sequence satisfies the guard at the state where
it executes. -/
def guardedOps : GwState → List GwOp → Bool
  | _, [] => true
  | s, op :: rest => guardOk s op && guardedOps (gwStep s op) rest

/-- The descriptor-level mirror invariant together with the bookkeeping it
needs: store keys and cache keys contain no duplicates, and the cache is
either cold (empty) or maps every id to exactly the Thing constructed from
the store's record for that id — so every store record is a cache entry and
vice versa, descriptions included. -/
def mirrorInv (s : GwState) : Prop :=
  (s.db.map Prod.fst).Nodup ∧ (s.things.map Prod.fst).Nodup ∧
    (s.things = [] ∨ ∀ k, mget s.things k = (mget s.db k).map (Thing.mk k))

/-- The event-loop state of concurrent getThings calls: the cache, the
number of store queries issued, the number of in-flight loads, and the
maps handed back to callers so far. -/
structure LoadSt where
  cache : CacheMap
  queries : Nat
  pending : Nat
  results : List CacheMap
  deriving Repr

/-- The synchronous prefix of one getThings call: a warm cache is handed
back at once; a cold cache issues a store query whose resolution is still
pending.  JavaScript run-to-completion means every concurrently issued call
executes this prefix before any load resolves. -/
def gtCall (s : LoadSt) : LoadSt :=
  if 0 < msize s.cache then { s with results := s.results ++ [s.cache] }
  else { s with queries := s.queries + 1, pending := s.pending + 1 }

/-- The resolution of one in-flight Database.getThings query: the then
callback rebuilds the cache from the rows unconditionally and hands the
rebuilt map back to its caller. -/
def gtResolve (rows : DbRows) (s : LoadSt) : LoadSt :=
  if s.pending = 0 then s
  else
    { cache := loadThings rows, queries := s.queries,
      pending := s.pending - 1, results := s.results ++ [loadThings rows] }

/-- M getThings calls issued concurrently against a cold cache, each
synchronous prefix running before any of the M loads resolves, the store
contents unchanged throughout. -/
def concurrentCold (rows : DbRows) (M : Nat) : LoadSt :=
  (gtResolve rows)^[M] (gtCall^[M] (LoadSt.mk [] 0 0 []))

/-! Helper lemmas about the JavaScript Map model. -/

theorem mhas_iff_mem {α : Type} (m : List (String × α)) (k : String) :
    mhas m k = true ↔ k ∈ m.map Prod.fst := by
  induction m with
  | nil => simp [mhas]
  | cons e rest ih =>
    simp only [mhas, Bool.or_eq_true, beq_iff_eq, List.map_cons, List.mem_cons, ih]
    constructor
    · rintro (h | h)
      · exact Or.inl h.symm
      · exact Or.inr h
    · rintro (h | h)
      · exact Or.inl h.symm
      · exact Or.inr h

theorem mhas_mset {α : Type} (m : List (String × α)) (k k' : String) (v : α) :
    mhas (mset m k v) k' = (k == k' || mhas m k') := by
  induction m with
  | nil => simp [mset, mhas]
  | cons e rest ih =>
    by_cases h : e.1 = k
    · subst h
      simp only [mset, beq_self_eq_true, if_true, mhas]
      cases hk : (e.1 == k') <;> simp [mhas, hk]
    · have hb : (e.1 == k) = false := by simp [h]
      simp only [mset, hb, Bool.false_eq_true, if_false, mhas, ih]
      cases hk : (k == k') <;> cases he : (e.1 == k') <;> simp [hk, he]

theorem keys_mset {α : Type} (m : List (String × α)) (k : String) (v : α) :
    (mset m k v).map Prod.fst =
      if mhas m k then m.map Prod.fst else m.map Prod.fst ++ [k] := by
  induction m with
  | nil => simp [mset, mhas]
  | cons e rest ih =>
    by_cases h : e.1 = k
    · simp [mset, mhas, h]
    · have hb : (e.1 == k) = false := by simp [h]
      simp [mset, hb, mhas, ih]
      cases hk : mhas rest k <;> simp

theorem keys_mdelete {α : Type} (m : List (String × α)) (k : String) :
    (mdelete m k).map Prod.fst = (m.map Prod.fst).erase k := by
  induction m with
  | nil => simp [mdelete]
  | cons e rest ih =>
    by_cases h : e.1 = k
    · simp [mdelete, h, List.erase_cons]
    · simp [mdelete, h, List.erase_cons, ih]

theorem nodup_mset {α : Type} (m : List (String × α)) (k : String) (v : α)
    (h : (m.map Prod.fst).Nodup) : ((mset m k v).map Prod.fst).Nodup := by
  rw [keys_mset]
  cases hk : mhas m k with
  | true => simpa using h
  | false =>
    have hne : k ∉ m.map Prod.fst := by
      intro hmem
      have := (mhas_iff_mem m k).2 hmem
      rw [hk] at this
      exact Bool.false_ne_true this
    simp [List.nodup_append, h, List.disjoint_singleton, hne]

theorem nodup_mdelete {α : Type} (m : List (String × α)) (k : String)
    (h : (m.map Prod.fst).Nodup) : ((mdelete m k).map Prod.fst).Nodup := by
  rw [keys_mdelete]
  exact h.erase k

theorem mhas_mdelete_ne {α : Type} (m : List (String × α)) (k k' : String)
    (h : k' ≠ k) : mhas (mdelete m k) k' = mhas m k' := by
  cases hm : mhas m k' with
  | true =>
    have h1 : k' ∈ m.map Prod.fst := (mhas_iff_mem m k').1 hm
    have h2 : k' ∈ (m.map Prod.fst).erase k := (List.mem_erase_of_ne h).2 h1
    rw [← keys_mdelete] at h2
    exact (mhas_iff_mem _ k').2 h2
  | false =>
    cases hd : mhas (mdelete m k) k' with
    | false => rfl
    | true =>
      exfalso
      have h1 : k' ∈ (mdelete m k).map Prod.fst := (mhas_iff_mem _ k').1 hd
      rw [keys_mdelete] at h1
      have h2 : k' ∈ m.map Prod.fst := List.mem_of_mem_erase h1
      have h3 := (mhas_iff_mem m k').2 h2
      rw [hm] at h3
      exact Bool.false_ne_true h3

theorem mhas_mdelete_self {α : Type} (m : List (String × α)) (k : String)
    (h : (m.map Prod.fst).Nodup) : mhas (mdelete m k) k = false := by
  cases hk : mhas (mdelete m k) k with
  | false => rfl
  | true =>
    exfalso
    have hmem := (mhas_iff_mem (mdelete m k) k).1 hk
    rw [keys_mdelete] at hmem
    exact (h.not_mem_erase) hmem

theorem mget_none_iff {α : Type} (m : List (String × α)) (k : String) :
    mget m k = none ↔ mhas m k = false := by
  induction m with
  | nil => simp [mget, mhas]
  | cons e rest ih =>
    by_cases h : e.1 = k
    · simp [mget, mhas, h]
    · simp [mget, mhas, h, ih]

theorem mget_mset_self {α : Type} (m : List (String × α)) (k : String) (v : α) :
    mget (mset m k v) k = some v := by
  induction m with
  | nil => simp [mset, mget]
  | cons e rest ih =>
    by_cases h : e.1 = k
    · simp [mset, mget, h]
    · simp [mset, mget, h, ih]

theorem mget_mset_ne {α : Type} (m : List (String × α)) (id k : String) (v : α)
    (h : k ≠ id) : mget (mset m id v) k = mget m k := by
  have hik : (id == k) = false := by simp [Ne.symm h]
  induction m with
  | nil => simp [mset, mget, hik]
  | cons e rest ih =>
    by_cases he : e.1 = id
    · simp [mset, mget, he, hik]
    · simp [mset, mget, he, ih]

theorem mget_mdelete_ne {α : Type} (m : List (String × α)) (id k : String)
    (h : k ≠ id) : mget (mdelete m id) k = mget m k := by
  induction m with
  | nil => simp [mdelete]
  | cons e rest ih =>
    by_cases he : e.1 = id
    · simp [mdelete, mget, he, Ne.symm h]
    · simp [mdelete, mget, he, ih]

theorem mget_mdelete_self {α : Type} (m : List (String × α)) (k : String)
    (h : (m.map Prod.fst).Nodup) : mget (mdelete m k) k = none :=
  (mget_none_iff (mdelete m k) k).2 (mhas_mdelete_self m k h)

theorem mget_foldl_mset_none (rows : DbRows) (k : String) :
    ∀ (m : CacheMap), mget rows k = none →
      mget (rows.foldl (fun acc r => mset acc r.1 (Thing.mk r.1 r.2)) m) k = mget m k := by
  induction rows with
  | nil => intro m _; rfl
  | cons r rest ih =>
    intro m hr
    have h1 : (r.1 == k) = false := by
      cases hb : (r.1 == k) with
      | false => rfl
      | true => simp [mget, hb] at hr
    have h2 : mget rest k = none := by simpa [mget, h1] using hr
    rw [List.foldl_cons, ih (mset m r.1 (Thing.mk r.1 r.2)) h2]
    exact mget_mset_ne m r.1 k (Thing.mk r.1 r.2) (by
      intro hkk
      subst hkk
      simp at h1)

theorem mget_foldl_mset_some (rows : DbRows) (k : String) :
    ∀ (m : CacheMap) (d : Desc), (rows.map Prod.fst).Nodup → mget rows k = some d →
      mget (rows.foldl (fun acc r => mset acc r.1 (Thing.mk r.1 r.2)) m) k
        = some (Thing.mk k d) := by
  induction rows with
  | nil => intro m d _ hr; exact Option.noConfusion hr
  | cons r rest ih =>
    intro m d hnd hr
    rw [List.foldl_cons]
    cases hb : (r.1 == k) with
    | true =>
      have hk : r.1 = k := by simpa using hb
      have hd : d = r.2 := by
        simp [mget, hb] at hr
        exact hr.symm
      have hmem : k ∉ rest.map Prod.fst := by
        rw [← hk]
        exact (List.nodup_cons.1 (by simpa using hnd)).1
      have hrest : mget rest k = none := by
        apply (mget_none_iff rest k).2
        cases hm2 : mhas rest k with
        | false => rfl
        | true => exact absurd ((mhas_iff_mem rest k).1 hm2) hmem
      rw [mget_foldl_mset_none rest k (mset m r.1 (Thing.mk r.1 r.2)) hrest]
      subst hk
      subst hd
      exact mget_mset_self m r.1 (Thing.mk r.1 r.2)
    | false =>
      have h2 : mget rest k = some d := by simpa [mget, hb] using hr
      have hnd2 : (rest.map Prod.fst).Nodup := (List.nodup_cons.1 (by simpa using hnd)).2
      exact ih (mset m r.1 (Thing.mk r.1 r.2)) d hnd2 h2

theorem mget_loadThings (rows : DbRows) (k : String)
    (hnd : (rows.map Prod.fst).Nodup) :
    mget (loadThings rows) k = (mget rows k).map (Thing.mk k) := by
  cases hr : mget rows k with
  | none =>
    show mget (rows.foldl (fun acc r => mset acc r.1 (Thing.mk r.1 r.2)) []) k = _
    rw [mget_foldl_mset_none rows k [] hr]
    rfl
  | some d =>
    show mget (rows.foldl (fun acc r => mset acc r.1 (Thing.mk r.1 r.2)) []) k = _
    rw [mget_foldl_mset_some rows k [] d hnd hr]
    rfl

theorem msize_mset_pos {α : Type} (m : List (String × α)) (k : String) (v : α) :
    0 < msize (mset m k v) := by
  cases m with
  | nil => simp [mset, msize]
  | cons e rest =>
    by_cases h : e.1 = k <;> simp [mset, msize, h]

theorem msize_foldl_mset_pos (rows : DbRows) (m : CacheMap) (h : 0 < msize m) :
    0 < msize (rows.foldl (fun acc r => mset acc r.1 (Thing.mk r.1 r.2)) m) := by
  induction rows generalizing m with
  | nil => simpa using h
  | cons r rest ih =>
    exact ih (mset m r.1 (Thing.mk r.1 r.2)) (msize_mset_pos m r.1 (Thing.mk r.1 r.2))

theorem msize_loadThings_pos (rows : DbRows) (h : rows ≠ []) :
    0 < msize (loadThings rows) := by
  cases rows with
  | nil => exact absurd rfl h
  | cons r rest =>
    show 0 < msize ((r :: rest).foldl (fun acc x => mset acc x.1 (Thing.mk x.1 x.2)) [])
    rw [List.foldl_cons]
    exact msize_foldl_mset_pos rest _ (msize_mset_pos [] r.1 (Thing.mk r.1 r.2))

theorem mhas_foldl_mset (rows : DbRows) (m : CacheMap) (k : String) :
    mhas (rows.foldl (fun acc r => mset acc r.1 (Thing.mk r.1 r.2)) m) k
      = (mhas m k || mhas rows k) := by
  induction rows generalizing m with
  | nil => simp [mhas]
  | cons r rest ih =>
    rw [List.foldl_cons, ih, mhas_mset]
    show (r.1 == k || mhas m k || mhas rest k) = (mhas m k || mhas (r :: rest) k)
    simp [mhas]
    cases h1 : (r.1 == k) <;> cases h2 : mhas m k <;> simp

theorem mhas_loadThings (rows : DbRows) (k : String) :
    mhas (loadThings rows) k = mhas rows k := by
  show mhas (rows.foldl (fun acc r => mset acc r.1 (Thing.mk r.1 r.2)) []) k = mhas rows k
  rw [mhas_foldl_mset]
  simp [mhas]

theorem nodup_foldl_mset (rows : DbRows) (m : CacheMap)
    (h : (m.map Prod.fst).Nodup) :
    ((rows.foldl (fun acc r => mset acc r.1 (Thing.mk r.1 r.2)) m).map Prod.fst).Nodup := by
  induction rows generalizing m with
  | nil => simpa using h
  | cons r rest ih =>
    exact ih (mset m r.1 (Thing.mk r.1 r.2)) (nodup_mset m r.1 (Thing.mk r.1 r.2) h)

theorem nodup_loadThings (rows : DbRows) :
    ((loadThings rows).map Prod.fst).Nodup := by
  exact nodup_foldl_mset rows [] (by simp)

/-! Lemmas about the sequential and concurrent getThings call models. -/

theorem getThingsN_warm (rows : DbRows) :
    ∀ (n : Nat) (c : CacheMap), 0 < msize c → getThingsN rows n c = (c, 0) := by
  intro n
  induction n with
  | zero => intro c _; rfl
  | succ m ih =>
    intro c h
    simp [getThingsN, getThingsOnce, h, ih c h]

theorem getThingsN_nil : ∀ (n : Nat), getThingsN [] n [] = ([], n) := by
  intro n
  induction n with
  | zero => rfl
  | succ m ih =>
    simp [getThingsN, getThingsOnce, msize, loadThings, ih, Nat.add_comm]

/-- Claim C1 (counterexample): with an empty persistent store, two
sequential getThings calls with no intervening mutation issue two store
queries, not one — the size-based warm test never marks an empty cache
warm. -/
theorem things_C1_counterexample :
    (getThingsN ([] : DbRows) 2 []).2 = 2 ∧ (getThingsN ([] : DbRows) 2 []).2 ≠ 1 := by
  decide

/-- Claim C1 (amended): N sequential getThings calls (N at least 1) from a
cold cache with no intervening create, remove, or clear issue exactly one
store query when the store holds at least one descriptor; when the store is
empty, every call issues a query, so N queries are issued. -/
theorem things_C1_amended (rows : DbRows) (N : Nat) (hN : 1 ≤ N) :
    (getThingsN rows N []).2 = if rows.isEmpty then N else 1 := by
  cases N with
  | zero => exact absurd hN (by omega)
  | succ n =>
    cases hr : rows with
    | nil => simp [getThingsN_nil]
    | cons r rest =>
      have hwarm : 0 < msize (loadThings (r :: rest)) :=
        msize_loadThings_pos (r :: rest) (by simp)
      simp [getThingsN, getThingsOnce, msize, getThingsN_warm _ n _ hwarm]

/-- Claim C1 (witness): a store with one descriptor, two sequential calls,
one query. -/
theorem things_C1_amended_witness :
    (getThingsN [("a", "d")] 2 []).2 = if ([("a", "d")] : DbRows).isEmpty then 2 else 1 :=
  things_C1_amended [("a", "d")] 2 (by omega)

/-- Claim C4 (counterexample): the not-found outcome of getThing is a plain
generic Error — the very same error class a store failure surfaces with —
so at these concrete inputs the claimed dedicated NotFound outcome does not
exist. -/
theorem things_C4_counterexample :
    getThing [] (Except.ok []) "x"
      = Except.error (JsError.mk "Error" ("Unable to find thing with id: " ++ "x")) ∧
    getThing [] (Except.error (JsError.mk "Error" "store unavailable")) "x"
      = Except.error (JsError.mk "Error" "store unavailable") ∧
    errClassOf (getThing [] (Except.ok []) "x")
      = errClassOf (getThing [] (Except.error (JsError.mk "Error" "store unavailable")) "x") :=
  ⟨rfl, rfl, rfl⟩

/-- Claim C4 (amended): for every id absent from the resolved registry map,
getThing and getThingDescription fail with the generic Error whose message
is "Unable to find thing with id: " followed by the id — recognisable by
its message text only, not by a dedicated error class. -/
theorem things_C4_amended (things : CacheMap) (dbOutcome : Except JsError DbRows)
    (id : String) (m : CacheMap)
    (hm : getThingsE things dbOutcome = Except.ok m)
    (habs : mget m id = none) :
    getThing things dbOutcome id
      = Except.error (JsError.mk "Error" ("Unable to find thing with id: " ++ id)) ∧
    getThingDescription things dbOutcome id
      = Except.error (JsError.mk "Error" ("Unable to find thing with id: " ++ id)) := by
  have h1 : getThing things dbOutcome id
      = Except.error (JsError.mk "Error" ("Unable to find thing with id: " ++ id)) := by
    simp [getThing, hm, habs]
  exact ⟨h1, by simp [getThingDescription, h1]⟩

/-- Claim C4 (witness): an empty registry rejects a lookup of "xyz" with
the message-tagged generic Error. -/
theorem things_C4_amended_witness :
    getThing [] (Except.ok []) "xyz"
      = Except.error (JsError.mk "Error" ("Unable to find thing with id: " ++ "xyz")) ∧
    getThingDescription [] (Except.ok []) "xyz"
      = Except.error (JsError.mk "Error" ("Unable to find thing with id: " ++ "xyz")) :=
  things_C4_amended [] (Except.ok []) "xyz" [] rfl rfl

theorem broadcastRun_eq (serialize : Desc → String) (ws : List Socket) (p : Desc) :
    broadcastRun serialize ws p =
      ((ws.takeWhile (fun s => !s.sendFails)).map (fun s => (s.id, serialize p)),
       ((ws.dropWhile (fun s => !s.sendFails)).head?).map Socket.id) := by
  induction ws with
  | nil => rfl
  | cons s rest ih =>
    cases h : s.sendFails with
    | true => simp [broadcastRun, h, List.takeWhile_cons, List.dropWhile_cons]
    | false => simp [broadcastRun, h, List.takeWhile_cons, List.dropWhile_cons, ih]

/-- Claim C5 (counterexample): with two registered subscribers whose first
send throws, handleNewThing delivers to nobody — in particular the second,
healthy subscriber never receives the payload, refuting delivery to every
registered subscriber under a per-subscriber failure. -/
theorem things_C5_counterexample :
    ((handleNewThing (fun d => d) [Socket.mk 1 true, Socket.mk 2 false] "newthing").1).1 = [] ∧
    ((2 : Nat), "newthing") ∉
      ((handleNewThing (fun d => d) [Socket.mk 1 true, Socket.mk 2 false] "newthing").1).1 := by
  decide

/-- Claim C5 (amended): handleNewThing attempts delivery in registration
order; the subscribers strictly before the first failing send receive the
serialized description, the first failing send aborts the broadcast with
its exception so every later subscriber receives nothing, and the
subscriber list is left unchanged (no subscriber is removed). -/
theorem things_C5_amended (serialize : Desc → String) (ws : List Socket) (p : Desc) :
    handleNewThing serialize ws p =
      (((ws.takeWhile (fun s => !s.sendFails)).map (fun s => (s.id, serialize p)),
        ((ws.dropWhile (fun s => !s.sendFails)).head?).map Socket.id), ws) := by
  unfold handleNewThing
  rw [broadcastRun_eq]

/-- Claim C6 (confirmed): if the store write of createThing fails, the
cache is returned untouched (no entry for the id becomes visible) and the
failure propagates; on store success the constructed Thing is inserted
under its id and the persisted description is returned. -/
theorem things_C6 (things : CacheMap) (id : String) (d : Desc) :
    (∀ e, createThing things id d (Except.error e) = (things, Except.error e)) ∧
    (∀ td, (createThing things id d (Except.ok td)).1 = mset things id (Thing.mk id d) ∧
           mget (createThing things id d (Except.ok td)).1 id = some (Thing.mk id d) ∧
           (createThing things id d (Except.ok td)).2 = Except.ok td) := by
  refine ⟨fun e => rfl, fun td => ⟨rfl, ?_, rfl⟩⟩
  exact mget_mset_self things id (Thing.mk id d)

/-- Claim C7 (confirmed): removeThing deletes from the store first; a store
failure leaves the cache untouched and propagates; on store success an
absent id is a silent successful no-op, a present id has its Thing's remove
hook invoked and its entry deleted, and the call never fails when the store
delete succeeded (so a second remove of the same id succeeds). -/
theorem things_C7 (things : CacheMap) (id : String) :
    (∀ e, removeThing things id (Except.error e) = (things, [], Except.error e)) ∧
    (mget things id = none → removeThing things id (Except.ok ()) = (things, [], Except.ok ())) ∧
    (∀ t, mget things id = some t →
        removeThing things id (Except.ok ()) = (mdelete things id, [t], Except.ok ())) ∧
    (removeThing things id (Except.ok ())).2.2 = Except.ok () := by
  refine ⟨fun e => rfl, fun h => ?_, fun t h => ?_, ?_⟩
  · simp [removeThing, h]
  · simp [removeThing, h]
  · cases h : mget things id <;> simp [removeThing, h]

/-- Claim C7 (witness): removing an id absent from the cache succeeds as a
no-op, and removing a cached id releases and deletes exactly that entry. -/
theorem things_C7_witness :
    removeThing [] "x" (Except.ok ()) = ([], [], Except.ok ()) ∧
    removeThing [("a", Thing.mk "a" "d")] "a" (Except.ok ())
      = ([], [Thing.mk "a" "d"], Except.ok ()) := by
  constructor
  · exact (things_C7 [] "x").2.1 rfl
  · exact (things_C7 [("a", Thing.mk "a" "d")] "a").2.2.1 (Thing.mk "a" "d") rfl

/-- Claim C8 (code bug): a close event firing for a websocket that is no
longer in the list makes indexOf return -1, and splice(-1, 1) then removes
the LAST element of the list instead of removing nothing — here the only
remaining, unrelated subscriber is removed. -/
theorem things_C8_bug :
    closeHandler [Socket.mk 1 false] (Socket.mk 2 false) = [] ∧
    closeHandler [Socket.mk 1 false] (Socket.mk 2 false) ≠ [Socket.mk 1 false] := by
  decide

/-- Claim C10 (confirmed): clearState empties the websocket list (and the
cache), so a broadcast performed after clearState delivers to no pre-clear
subscriber even though their connections never closed. -/
theorem things_C10 (s : ThingsState) (serialize : Desc → String) (p : Desc) :
    (clearState s).websockets = [] ∧ (clearState s).things = [] ∧
    handleNewThing serialize (clearState s).websockets p = (([], none), []) :=
  ⟨rfl, rfl, rfl⟩

theorem addNewThing_skip (tp pp : String) (stored : CacheMap)
    (acc : List ConnectedThing) (c : ConnectedThing)
    (h : mhas stored c.id = true) : addNewThing tp pp stored acc c = acc := by
  simp [addNewThing, h]

theorem addNewThing_push (tp pp : String) (stored : CacheMap)
    (acc : List ConnectedThing) (c : ConnectedThing)
    (h : mhas stored c.id = false) :
    addNewThing tp pp stored acc c = acc ++ [addressThing tp pp c] := by
  cases c with
  | mk id href props =>
    cases props with
    | none => simp [addNewThing, h, addressThing]
    | some ps => simp [addNewThing, h, addressThing]

theorem getNewThings_foldl (tp pp : String) (stored : CacheMap) :
    ∀ (connected acc : List ConnectedThing),
      connected.foldl (addNewThing tp pp stored) acc
        = acc ++ (connected.filter (fun c => !(mhas stored c.id))).map (addressThing tp pp) := by
  intro connected
  induction connected with
  | nil => intro acc; simp
  | cons c rest ih =>
    intro acc
    rw [List.foldl_cons]
    cases h : mhas stored c.id with
    | true =>
      rw [addNewThing_skip tp pp stored acc c h, ih]
      simp [List.filter_cons, h]
    | false =>
      rw [addNewThing_push tp pp stored acc c h, ih]
      simp [List.filter_cons, h]

/-- Claim C3 (confirmed): getNewThings returns exactly the connected
devices whose id is not stored, in connected order, each addressed by the
specification's scheme — href set to THINGS_PATH/id and every property
href set to THINGS_PATH/id PROPERTIES_PATH/name — while already stored
devices are dropped entirely and never re-addressed. -/
theorem things_C3 (tp pp : String) (stored : CacheMap)
    (connected : List ConnectedThing) :
    getNewThings tp pp stored connected
      = (connected.filter (fun c => !(mhas stored c.id))).map (addressThing tp pp)
    ∧ ∀ c : ConnectedThing,
        (addressThing tp pp c).id = c.id ∧
        (addressThing tp pp c).href = tp ++ "/" ++ c.id ∧
        (addressThing tp pp c).properties
          = c.properties.map (fun props => props.map (fun q =>
              (q.1, { q.2 with href := tp ++ "/" ++ c.id ++ pp ++ "/" ++ q.1 }))) := by
  constructor
  · show connected.foldl (addNewThing tp pp stored) [] = _
    rw [getNewThings_foldl]
    simp
  · intro c
    exact ⟨rfl, rfl, rfl⟩

/-- Claim C2 (counterexample): starting cold with the store already holding
descriptor "a", one completed createThing of "b" leaves a cache that the
size test treats as warm (getThings would return it with no load) yet the
store record "a" is not a cache entry — the warm-cache mirror invariant
fails in a reachable post-call state. -/
theorem things_C2_counterexample :
    0 < msize (gwRun (GwState.mk [("a", "da")] []) [GwOp.create "b" "db2"]).things ∧
    mhas (gwRun (GwState.mk [("a", "da")] []) [GwOp.create "b" "db2"]).db "a" = true ∧
    mhas (gwRun (GwState.mk [("a", "da")] []) [GwOp.create "b" "db2"]).things "a" = false := by
  decide

theorem mirrorInv_step (s : GwState) (op : GwOp)
    (h : mirrorInv s) (hg : guardOk s op = true) : mirrorInv (gwStep s op) := by
  obtain ⟨hdb, hth, hmir⟩ := h
  cases op with
  | load =>
    show mirrorInv (if 0 < msize s.things then s else { s with things := loadThings s.db })
    by_cases hw : 0 < msize s.things
    · rw [if_pos hw]
      exact ⟨hdb, hth, hmir⟩
    · rw [if_neg hw]
      exact ⟨hdb, nodup_loadThings s.db, Or.inr (fun k => mget_loadThings s.db k hdb)⟩
  | create id d =>
    refine ⟨nodup_mset s.db id d hdb, nodup_mset s.things id (Thing.mk id d) hth,
      Or.inr (fun k => ?_)⟩
    show mget (mset s.things id (Thing.mk id d)) k
      = (mget (mset s.db id d) k).map (Thing.mk k)
    by_cases hk : k = id
    · subst hk
      rw [mget_mset_self, mget_mset_self]
      rfl
    · rw [mget_mset_ne s.things id k (Thing.mk id d) hk, mget_mset_ne s.db id k d hk]
      cases hmir with
      | inr hm => exact hm k
      | inl hempty =>
        cases hdb0 : s.db with
        | nil =>
          rw [hempty]
          rfl
        | cons a l =>
          exfalso
          simp [guardOk, hempty, msize, hdb0] at hg
  | remove id =>
    cases hget : mget s.things id with
    | none =>
      refine ⟨nodup_mdelete s.db id hdb, ?_, ?_⟩
      · show ((match mget s.things id with
               | none => s.things
               | some _ => mdelete s.things id).map Prod.fst).Nodup
        rw [hget]
        exact hth
      · cases hmir with
        | inl he =>
          left
          show (match mget s.things id with
                | none => s.things
                | some _ => mdelete s.things id) = []
          rw [hget]
          exact he
        | inr hm =>
          right
          intro k
          show mget (match mget s.things id with
                     | none => s.things
                     | some _ => mdelete s.things id) k
            = (mget (mdelete s.db id) k).map (Thing.mk k)
          rw [hget]
          by_cases hk : k = id
          · subst hk
            rw [mget_mdelete_self s.db k hdb, hget]
            rfl
          · rw [mget_mdelete_ne s.db id k hk]
            exact hm k
    | some t =>
      refine ⟨nodup_mdelete s.db id hdb, ?_, ?_⟩
      · show ((match mget s.things id with
               | none => s.things
               | some _ => mdelete s.things id).map Prod.fst).Nodup
        rw [hget]
        exact nodup_mdelete s.things id hth
      · cases hmir with
        | inl he =>
          exfalso
          rw [he] at hget
          exact Option.noConfusion hget
        | inr hm =>
          right
          intro k
          show mget (match mget s.things id with
                     | none => s.things
                     | some _ => mdelete s.things id) k
            = (mget (mdelete s.db id) k).map (Thing.mk k)
          rw [hget]
          by_cases hk : k = id
          · subst hk
            rw [mget_mdelete_self s.things k hth, mget_mdelete_self s.db k hdb]
            rfl
          · rw [mget_mdelete_ne s.things id k hk, mget_mdelete_ne s.db id k hk]
            exact hm k
  | clear =>
    exact ⟨hdb, List.nodup_nil, Or.inl rfl⟩

theorem mirrorInv_run : ∀ (ops : List GwOp) (s : GwState), mirrorInv s →
    guardedOps s ops = true → mirrorInv (gwRun s ops) := by
  intro ops
  induction ops with
  | nil => intro s h _; exact h
  | cons op rest ih =>
    intro s h hg
    rw [guardedOps, Bool.and_eq_true] at hg
    show mirrorInv (gwRun (gwStep s op) rest)
    exact ih (gwStep s op) (mirrorInv_step s op h hg.1) hg.2

/-- Claim C2 (amended): over runs from an arbitrary duplicate-free store
and a cold cache, in every reachable state whose cache is warm the cache is
the store's exact descriptor mirror — each id resolves in the cache to
precisely the Descriptor constructed from the store's record for that id,
and to nothing when the id is not stored (so every store record is a cache
entry and vice versa) — provided every createThing was performed while the
cache was warm or the store empty; a create on a cold cache over a
non-empty store is exactly the step the counterexample shows violating the
mirror. -/
theorem things_C2_amended (db0 : DbRows) (ops : List GwOp)
    (hnd : (db0.map Prod.fst).Nodup)
    (hg : guardedOps (GwState.mk db0 []) ops = true)
    (hwarm : 0 < msize (gwRun (GwState.mk db0 []) ops).things)
    (k : String) :
    mget (gwRun (GwState.mk db0 []) ops).things k
      = (mget (gwRun (GwState.mk db0 []) ops).db k).map (Thing.mk k) := by
  have h := mirrorInv_run ops (GwState.mk db0 []) ⟨hnd, by simp, Or.inl rfl⟩ hg
  obtain ⟨-, -, hmir⟩ := h
  cases hmir with
  | inl he =>
    rw [he] at hwarm
    exact absurd hwarm (by simp [msize])
  | inr hm => exact hm k

/-- Claim C2 (witness): load the store, then create "b": the final warm
cache resolves "a" to exactly the Thing built from the store's record. -/
theorem things_C2_amended_witness :
    mget (gwRun (GwState.mk [("a", "da")] []) [GwOp.load, GwOp.create "b" "db2"]).things "a"
      = (mget (gwRun (GwState.mk [("a", "da")] []) [GwOp.load, GwOp.create "b" "db2"]).db "a").map
          (Thing.mk "a") :=
  things_C2_amended [("a", "da")] [GwOp.load, GwOp.create "b" "db2"]
    (by decide) (by decide) (by decide) "a"

theorem gtCall_iter_cold :
    ∀ (M : Nat), gtCall^[M] (LoadSt.mk [] 0 0 []) = LoadSt.mk [] M M [] := by
  intro M
  induction M with
  | zero => rfl
  | succ n ih =>
    rw [Function.iterate_succ_apply', ih]
    rfl

theorem gtResolve_iter_queries (rows : DbRows) :
    ∀ (k : Nat) (s : LoadSt), ((gtResolve rows)^[k] s).queries = s.queries := by
  intro k
  induction k with
  | zero => intro s; rfl
  | succ n ih =>
    intro s
    rw [Function.iterate_succ_apply, ih]
    by_cases h : s.pending = 0 <;> simp [gtResolve, h]

theorem gtResolve_iter_results (rows : DbRows) :
    ∀ (k : Nat) (s : LoadSt), k ≤ s.pending →
      ((gtResolve rows)^[k] s).results = s.results ++ List.replicate k (loadThings rows) := by
  intro k
  induction k with
  | zero => intro s _; simp
  | succ n ih =>
    intro s hk
    rw [Function.iterate_succ_apply]
    have hp : ¬(s.pending = 0) := by omega
    have hstep : gtResolve rows s =
        LoadSt.mk (loadThings rows) s.queries (s.pending - 1) (s.results ++ [loadThings rows]) := by
      simp [gtResolve, hp]
    rw [hstep, ih _ (by simp; omega)]
    simp [List.replicate_succ]

/-- Claim C9 (counterexample): two getThings calls issued concurrently on a
cold cache issue two store queries, not one — the synchronous size check of
each call runs before either load resolves, so no single-flight
de-duplication happens. -/
theorem things_C9_counterexample :
    (concurrentCold [("a", "d")] 2).queries = 2 ∧
    (concurrentCold [("a", "d")] 2).queries ≠ 1 := by
  decide

/-- Claim C9 (amended): M getThings calls issued concurrently while cold
each issue their own store query (M queries in total, one per caller); each
caller's then callback rebuilds the cache from its own query's rows, so
with the store contents unchanged across the queries all M callers receive
equal resulting mappings. -/
theorem things_C9_amended (rows : DbRows) (M : Nat) :
    (concurrentCold rows M).queries = M ∧
    (concurrentCold rows M).results = List.replicate M (loadThings rows) := by
  unfold concurrentCold
  rw [gtCall_iter_cold]
  constructor
  · rw [gtResolve_iter_queries]
  · rw [gtResolve_iter_results rows M (LoadSt.mk [] M M []) (le_refl M)]
    simp

end Gateway
